import Mathlib

/-!
Verification development for the fetch-normalize-inline pipeline of the
deepakui repository.  The pipeline lives in `netlify/functions/scrape.js`
and in three near-duplicate deployment adapters (here called `part_000`,
`part_001` and `part_003`).  The definitions below are shallow embeddings
of those JavaScript functions: strings are modelled as `List Char`,
network and JSON effects as explicit outcome values, and Node's WHATWG
`new URL(input, base)` as an executable partial parser returning
`Option`.  All definitions are executable so that every theorem can be
checked on concrete inputs.
-/

namespace Scrape

/-! ### Character and JS-string primitives -/

/-- Single-quote character (U+0027). -/
def squote : Char := Char.ofNat 39

/-- Double-quote character (U+0022). -/
def dquote : Char := Char.ofNat 34

/-- Backslash character (U+005C). -/
def bslash : Char := Char.ofNat 92

/-- Backtick character (U+0060). -/
def btick : Char := Char.ofNat 96

/-- Newline character (U+000A). -/
def nlChar : Char := Char.ofNat 10

/-- JS whitespace as recognised by `String.prototype.trim` and `\s`
(restricted to the code points that can appear in this development). -/
def jsWhitespace (c : Char) : Bool :=
  c = ' ' || c.toNat = 9 || c.toNat = 10 || c.toNat = 13 || c.toNat = 12 ||
  c.toNat = 11 || c.toNat = 0xA0 || c.toNat = 0xFEFF

/-- JS `String.prototype.trim` on a character list. -/
def jsTrimList (cs : List Char) : List Char :=
  ((cs.dropWhile jsWhitespace).reverse.dropWhile jsWhitespace).reverse

/-- JS `String.prototype.trim`. -/
def jsTrim (s : String) : String := ⟨jsTrimList s.data⟩

/-- JS `s.startsWith(p)`. -/
def jsStartsWith (s p : String) : Bool := p.data.isPrefixOf s.data

/-- JS `s.includes(sub)` for a non-empty needle. -/
def containsSub (needle : List Char) : List Char → Bool
  | [] => needle.isEmpty
  | c :: cs => needle.isPrefixOf (c :: cs) || containsSub needle cs

/-- Split a list at the first character satisfying `p`; `none` when no
character matches. -/
def splitFirstP (p : Char → Bool) : List Char → Option (List Char × List Char)
  | [] => none
  | c :: cs =>
    if p c then some ([], cs)
    else
      match splitFirstP p cs with
      | some (a, b) => some (c :: a, b)
      | none => none

/-- Split a list at the first occurrence of `sep`. -/
def splitFirst (sep : Char) (cs : List Char) : Option (List Char × List Char) :=
  splitFirstP (fun c => c = sep) cs

/-- JS `String.prototype.split` with a single-character separator:
`"a,,b"` gives `["a", "", "b"]` and `""` gives `[""]`. -/
def splitAllP (p : Char → Bool) : List Char → List (List Char)
  | [] => [[]]
  | c :: cs =>
    let r := splitAllP p cs
    if p c then [] :: r
    else
      match r with
      | h :: t => (c :: h) :: t
      | [] => [[c]]

/-- JS `s.split(sep)` for a one-character separator. -/
def splitAll (sep : Char) (cs : List Char) : List (List Char) :=
  splitAllP (fun c => c = sep) cs

/-- Worker for `splitWsRuns`; the fuel starts at the list length and each
step consumes at least one character. -/
def splitWsGo : Nat → List Char → List Char → List (List Char)
  | 0, cur, _ => [cur.reverse]
  | _ + 1, cur, [] => [cur.reverse]
  | fuel + 1, cur, c :: cs =>
    if jsWhitespace c then cur.reverse :: splitWsGo fuel [] (cs.dropWhile jsWhitespace)
    else splitWsGo fuel (c :: cur) cs

/-- JS `s.split(/\s+/)`: maximal whitespace runs are separators, so
`" a b "` gives `["", "a", "b", ""]` and `""` gives `[""]`. -/
def splitWsRuns (cs : List Char) : List (List Char) :=
  splitWsGo cs.length [] cs

/-- Join character lists with a separator list. -/
def joinSep (sep : List Char) : List (List Char) → List Char
  | [] => []
  | [x] => x
  | x :: y :: t => x ++ sep ++ joinSep sep (y :: t)

/-- Decimal digits of a bounded natural number (fuel-based; ample fuel for
every port number). -/
def natDigitsAux : Nat → Nat → List Char
  | 0, _ => []
  | fuel + 1, n =>
    if n < 10 then [Char.ofNat (48 + n)]
    else natDigitsAux fuel (n / 10) ++ [Char.ofNat (48 + n % 10)]

/-- Decimal rendering of a natural number (used only for URL ports). -/
def natToString (n : Nat) : String := ⟨natDigitsAux 10 n⟩

/-! ### Model of Node's WHATWG `URL`

The pipeline calls `new URL(input, base)` (resolution) and
`new URL(input)` (absolute parse), plus `.toString()`.  The model below
embeds the WHATWG basic URL parser restricted to the shapes this
repository can produce: scheme, userinfo, host, port, path segments,
query, fragment, and opaque paths for non-special schemes.  Not modelled
(no input in this development exercises them): IPv6/IPv4 host forms,
percent-encoded host bytes (a literal `%` in a special-scheme host is
treated as a parse failure), `file:` drive-letter quirks, and the
`%2e` spellings of dot path segments. -/

/-- Parsed URL record, mirroring the WHATWG URL record. -/
structure URLRecord where
  scheme : String
  userinfo : String
  host : String
  port : Option Nat
  path : List String
  opaquePath : Option String
  query : Option String
  fragment : Option String
deriving DecidableEq

/-- The WHATWG special schemes. -/
def isSpecialScheme (s : String) : Bool :=
  s = "http" || s = "https" || s = "ws" || s = "wss" || s = "ftp" || s = "file"

/-- Default port of a special scheme (omitted from serialization). -/
def defaultPort (s : String) : Option Nat :=
  if s = "http" || s = "ws" then some 80
  else if s = "https" || s = "wss" then some 443
  else if s = "ftp" then some 21
  else none

/-- Uppercase hexadecimal digit. -/
def hexDigit (n : Nat) : Char :=
  if n < 10 then Char.ofNat (48 + n) else Char.ofNat (55 + n)

/-- UTF-8 bytes of a character, as naturals. -/
def utf8Bytes (c : Char) : List Nat :=
  let n := c.toNat
  if n < 0x80 then [n]
  else if n < 0x800 then [0xC0 + n / 64, 0x80 + n % 64]
  else if n < 0x10000 then [0xE0 + n / 4096, 0x80 + n / 64 % 64, 0x80 + n % 64]
  else [0xF0 + n / 262144, 0x80 + n / 4096 % 64, 0x80 + n / 64 % 64, 0x80 + n % 64]

/-- Percent-encode one byte. -/
def pctByte (b : Nat) : List Char := ['%', hexDigit (b / 16), hexDigit (b % 16)]

/-- Percent-encode every character matched by `inSet`, leaving the rest. -/
def pctEncode (inSet : Char → Bool) (cs : List Char) : List Char :=
  match cs with
  | [] => []
  | c :: rest =>
    (if inSet c then (utf8Bytes c).foldr (fun b acc => pctByte b ++ acc) []
     else [c]) ++ pctEncode inSet rest

/-- WHATWG path percent-encode set. -/
def pathEncodeSet (c : Char) : Bool :=
  c.toNat < 0x20 || c = ' ' || c = dquote || c = '<' || c = '>' || c = '?' ||
  c = '#' || c = btick || c = Char.ofNat 123 || c = Char.ofNat 125 || c.toNat ≥ 0x7F

/-- WHATWG query percent-encode set (special-scheme variant also encodes
the single quote). -/
def queryEncodeSet (special : Bool) (c : Char) : Bool :=
  c.toNat < 0x20 || c = ' ' || c = dquote || c = '#' || c = '<' || c = '>' ||
  (special && c = squote) || c.toNat ≥ 0x7F

/-- WHATWG fragment percent-encode set. -/
def fragmentEncodeSet (c : Char) : Bool :=
  c.toNat < 0x20 || c = ' ' || c = dquote || c = '<' || c = '>' || c = btick ||
  c.toNat ≥ 0x7F

/-- Forbidden host code points (both host kinds). -/
def forbiddenHostChar (c : Char) : Bool :=
  c.toNat = 0 || c.toNat = 9 || c.toNat = 10 || c.toNat = 13 || c = ' ' ||
  c = '#' || c = '/' || c = ':' || c = '<' || c = '>' || c = '?' || c = '@' ||
  c = '[' || c = bslash || c = ']' || c = '^' || c = '|'

/-- Scheme parsing: an ASCII letter then letters, digits, `+`, `-`, `.`
up to a `:`.  Returns the lowercased scheme and the rest of the input. -/
def schemeSplitGo (acc : List Char) : List Char → Option (List Char × List Char)
  | [] => none
  | c :: cs =>
    if c = ':' then some (acc.reverse, cs)
    else if c.isAlphanum || c = '+' || c = '-' || c = '.' then
      schemeSplitGo (c.toLower :: acc) cs
    else none

/-- Split off a leading URL scheme, if any. -/
def schemeSplit : List Char → Option (List Char × List Char)
  | [] => none
  | c :: cs => if c.isAlpha then schemeSplitGo [c.toLower] cs else none

/-- Strip ASCII tab and newline anywhere in the input (WHATWG step 3). -/
def stripTabNewline (cs : List Char) : List Char :=
  cs.filter (fun c => !(c.toNat = 9 || c.toNat = 10 || c.toNat = 13))

/-- Strip leading and trailing C0 controls and spaces (WHATWG step 1). -/
def trimC0Space (cs : List Char) : List Char :=
  ((cs.dropWhile (fun c => c.toNat ≤ 32)).reverse.dropWhile
    (fun c => c.toNat ≤ 32)).reverse

/-- Split the remainder of a URL into (body, query, fragment): the
fragment starts at the first `#`, the query at the first `?` before it. -/
def splitRef (cs : List Char) : List Char × Option (List Char) × Option (List Char) :=
  match splitFirst '#' cs with
  | some (pre, frag) =>
    match splitFirst '?' pre with
    | some (p, q) => (p, some q, some frag)
    | none => (pre, none, some frag)
  | none =>
    match splitFirst '?' cs with
    | some (p, q) => (p, some q, none)
    | none => (cs, none, none)

/-- Path-segment separator: `/`, and also `\` for special schemes. -/
def isPathSep (special : Bool) (c : Char) : Bool :=
  c = '/' || (special && c = bslash)

/-- Take the authority chunk: characters up to the first path separator
(the query and fragment have already been split off). -/
def takeAuthority (special : Bool) : List Char → List Char × List Char
  | [] => ([], [])
  | c :: cs =>
    if isPathSep special c then ([], c :: cs)
    else
      let (a, b) := takeAuthority special cs
      (c :: a, b)

/-- Split userinfo from an authority chunk at the last `@`. -/
def splitUserinfo (cs : List Char) : List Char × List Char :=
  match splitFirst '@' cs.reverse with
  | some (a, b) => (b.reverse, a.reverse)
  | none => ([], cs)

/-- Digits to a natural number. -/
def digitsToNat (cs : List Char) : Nat :=
  cs.foldl (fun n c => n * 10 + (c.toNat - 48)) 0

/-- Parse `host[:port]`.  Special schemes require a non-empty host and
get ASCII-lowercased (domain-to-ASCII restricted to ASCII input); a
literal `%` in a special host is treated as failure.  Ports must be
decimal and below 2^16. -/
def parseHostPort (special : Bool) (cs : List Char) : Option (List Char × Option Nat) :=
  let (hostCs, portCs) :=
    match splitFirst ':' cs with
    | some (h, p) => (h, some p)
    | none => (cs, none)
  if hostCs.any (fun c => forbiddenHostChar c || (special && c = '%')) then none
  else if special && hostCs.isEmpty then none
  else
    let host := if special then hostCs.map Char.toLower else hostCs
    match portCs with
    | none => some (host, none)
    | some [] => some (host, none)
    | some p =>
      if p.all Char.isDigit && decide (digitsToNat p < 65536) then
        some (host, some (digitsToNat p))
      else none

/-- WHATWG dot-segment handling over a segment list: `..` pops the
previous segment, `.` is dropped, and a trailing `.`/`..` leaves an
empty final segment (the input ended without a slash). -/
def resolveDotsGo (acc : List (List Char)) : List (List Char) → List (List Char)
  | [] => acc.reverse
  | s :: rest =>
    if s = ['.', '.'] then
      let acc1 := acc.drop 1
      if rest.isEmpty then (([] : List Char) :: acc1).reverse else resolveDotsGo acc1 rest
    else if s = ['.'] then
      if rest.isEmpty then (([] : List Char) :: acc).reverse else resolveDotsGo acc rest
    else resolveDotsGo (s :: acc) rest

/-- Dot-segment resolution. -/
def resolveDots (segs : List (List Char)) : List (List Char) :=
  resolveDotsGo [] segs

/-- Encode the segments of a resolved path. -/
def encodePath (segs : List (List Char)) : List String :=
  segs.map (fun s => (⟨pctEncode pathEncodeSet s⟩ : String))

/-- Build the path record from the characters following the authority
(empty, or starting with a path separator). -/
def pathAfterAuthority (special : Bool) (pathRest : List Char) : List String :=
  match pathRest with
  | [] => if special then [""] else []
  | _ :: t => encodePath (resolveDots (splitAllP (isPathSep special) t))

/-- Parse a URL that carries an authority, given the characters after the
scheme (and after any leading slashes have been skipped). -/
def parseWithAuthority (scheme : String) (special : Bool) (afterSlashes : List Char) :
    Option URLRecord :=
  let (body, q, frag) := splitRef afterSlashes
  let (auth, pathRest) := takeAuthority special body
  let (ui, hostport) := splitUserinfo auth
  match parseHostPort special hostport with
  | none => none
  | some (host, port) =>
    some
      { scheme := scheme
        userinfo := ⟨ui⟩
        host := ⟨host⟩
        port := if port = defaultPort scheme then none else port
        path := pathAfterAuthority special pathRest
        opaquePath := none
        query := q.map (fun v => (⟨pctEncode (queryEncodeSet special) v⟩ : String))
        fragment := frag.map (fun v => (⟨pctEncode fragmentEncodeSet v⟩ : String)) }

/-- Skip the slashes of the special-authority-slashes-ignored state. -/
def dropLeadingSlashes (cs : List Char) : List Char :=
  cs.dropWhile (fun c => c = '/' || c = bslash)

/-- Resolve a scheme-less reference against a base record (the WHATWG
relative / relative-slash / path states). -/
def resolveRelative (b : URLRecord) (cs : List Char) : Option URLRecord :=
  let special := isSpecialScheme b.scheme
  if b.opaquePath.isSome then
    match cs with
    | [] => some { b with fragment := none }
    | c :: rest =>
      if c = '#' then
        some { b with fragment := some ⟨pctEncode fragmentEncodeSet rest⟩ }
      else none
  else
    match cs with
    | [] => some { b with fragment := none }
    | c :: rest =>
      if c = '#' then
        some { b with fragment := some ⟨pctEncode fragmentEncodeSet rest⟩ }
      else if c = '?' then
        match splitFirst '#' rest with
        | some (q, frag) =>
          some { b with query := some ⟨pctEncode (queryEncodeSet special) q⟩,
                        fragment := some ⟨pctEncode fragmentEncodeSet frag⟩ }
        | none =>
          some { b with query := some ⟨pctEncode (queryEncodeSet special) rest⟩,
                        fragment := none }
      else if isPathSep special c then
        if (match rest with
            | d :: _ => isPathSep special d
            | [] => false) then
          parseWithAuthority b.scheme special (dropLeadingSlashes (c :: rest))
        else
          let (body, q, frag) := splitRef (c :: rest)
          some { b with
            path := encodePath (resolveDots (splitAllP (isPathSep special) (body.drop 1)))
            query := q.map (fun v => (⟨pctEncode (queryEncodeSet special) v⟩ : String))
            fragment := frag.map (fun v => (⟨pctEncode fragmentEncodeSet v⟩ : String)) }
      else
        let (body, q, frag) := splitRef (c :: rest)
        let merged := (b.path.map String.data).dropLast ++
          splitAllP (isPathSep special) body
        some { b with
          path := encodePath (resolveDots merged)
          query := q.map (fun v => (⟨pctEncode (queryEncodeSet special) v⟩ : String))
          fragment := frag.map (fun v => (⟨pctEncode fragmentEncodeSet v⟩ : String)) }

/-- Node `new URL(input, base)` / `new URL(input)`: `none` models a
thrown `TypeError`. -/
def parseURL (input : String) (base : Option URLRecord) : Option URLRecord :=
  let cs := trimC0Space (stripTabNewline input.data)
  match schemeSplit cs with
  | some (schemeCs, rest) =>
    let scheme : String := ⟨schemeCs⟩
    if isSpecialScheme scheme then
      match base with
      | some b =>
        if b.scheme = scheme && !(['/', '/'].isPrefixOf rest) then
          resolveRelative b rest
        else parseWithAuthority scheme true (dropLeadingSlashes rest)
      | none => parseWithAuthority scheme true (dropLeadingSlashes rest)
    else
      if ['/', '/'].isPrefixOf rest then
        parseWithAuthority scheme false (rest.drop 2)
      else
        let (body, q, frag) := splitRef rest
        some
          { scheme := scheme
            userinfo := ""
            host := ""
            port := none
            path := []
            opaquePath := some ⟨pctEncode (fun c => c.toNat < 0x20 || c.toNat ≥ 0x7F) body⟩
            query := q.map (fun v => (⟨pctEncode (queryEncodeSet false) v⟩ : String))
            fragment := frag.map (fun v => (⟨pctEncode fragmentEncodeSet v⟩ : String)) }
  | none =>
    match base with
    | none => none
    | some b => resolveRelative b cs

/-- WHATWG URL serializer (`URL.prototype.toString` / `.href`). -/
def serializeURL (u : URLRecord) : String :=
  let qs := match u.query with
    | some q => "?" ++ q
    | none => ""
  let fs := match u.fragment with
    | some f => "#" ++ f
    | none => ""
  match u.opaquePath with
  | some p => u.scheme ++ ":" ++ p ++ qs ++ fs
  | none =>
    u.scheme ++ "://" ++
    (if u.userinfo = "" then "" else u.userinfo ++ "@") ++ u.host ++
    (match u.port with
     | some p => ":" ++ natToString p
     | none => "") ++
    String.join (u.path.map (fun seg => "/" ++ seg)) ++ qs ++ fs

/-! ### The URL normalizer `makeAbsolute` (scrape.js lines 6-22) -/

/-- Embedding of `makeAbsolute(relativeUrl, baseUrl)`: empty (falsy)
input and the literal prefixes `data:`, `http`, `//`, `#`, `mailto:`,
`tel:`, `javascript:` (checked on the trimmed string) pass through
unchanged; otherwise `new URL(relativeUrl, baseUrl).toString()`, with a
throw caught and the original string returned. -/
def makeAbsolute (relativeUrl : String) (baseUrl : URLRecord) : String :=
  if relativeUrl = "" then relativeUrl
  else if jsStartsWith (jsTrim relativeUrl) "data:" ||
      jsStartsWith (jsTrim relativeUrl) "http" ||
      jsStartsWith (jsTrim relativeUrl) "//" ||
      jsStartsWith (jsTrim relativeUrl) "#" ||
      jsStartsWith (jsTrim relativeUrl) "mailto:" ||
      jsStartsWith (jsTrim relativeUrl) "tel:" ||
      jsStartsWith (jsTrim relativeUrl) "javascript:" then relativeUrl
  else
    match parseURL relativeUrl (some baseUrl) with
    | some u => serializeURL u
    | none => relativeUrl

/-- `makeAbsolute` as called with a base string that itself fails to
parse: `new URL(rel, badBase)` parses the base first and throws for
every `rel`, so the catch returns the input unchanged. -/
def makeAbsoluteNoBase (relativeUrl : String) : String := relativeUrl

/-! ### The CSS rewriter `rewriteCssUrls` (scrape.js lines 25-31)

The JS source applies `cssContent.replace(/url\((['"']?)(.*?)\1\)/gi, ...)`
(the character class contains a duplicated quote, so it is just the two
quote characters).  The scanner below embeds that regex: at each
position it tries to match `url(` case-insensitively, then a greedy
optional quote, then a lazy capture up to the backreferenced quote and
`)`; on failure of the quoted alternative the engine backtracks to an
empty quote.  The dot never matches line terminators. -/

/-- Rest of the input after a case-insensitive `url(`, if it starts one. -/
def urlTokenOpen : List Char → Option (List Char)
  | u :: r :: l :: p :: rest =>
    if u.toLower = 'u' && r.toLower = 'r' && l.toLower = 'l' && p = '(' then some rest
    else none
  | _ => none

/-- Lazy search for the earliest `q` followed by `)`; fails on a line
terminator (the regex dot cannot cross it). -/
def findQuoteClose (q : Char) : List Char → Option (List Char × List Char)
  | [] => none
  | c :: cs =>
    if c = q then
      match cs with
      | d :: rest =>
        if d = ')' then some ([], rest)
        else
          match findQuoteClose q cs with
          | some (cap, r) => some (c :: cap, r)
          | none => none
      | [] => none
    else if c.toNat = 10 || c.toNat = 13 then none
    else
      match findQuoteClose q cs with
      | some (cap, r) => some (c :: cap, r)
      | none => none

/-- Lazy search for the earliest `)`; fails on a line terminator. -/
def findParenClose : List Char → Option (List Char × List Char)
  | [] => none
  | c :: cs =>
    if c = ')' then some ([], cs)
    else if c.toNat = 10 || c.toNat = 13 then none
    else
      match findParenClose cs with
      | some (cap, r) => some (c :: cap, r)
      | none => none

/-- Attempt the full regex match at the current position.  Returns the
captured quote (if any), the captured path, and the rest of the input
after the match. -/
def matchUrlToken (cs : List Char) : Option (Option Char × List Char × List Char) :=
  match urlTokenOpen cs with
  | none => none
  | some after =>
    match after with
    | q :: tail =>
      if q = squote || q = dquote then
        match findQuoteClose q tail with
        | some (cap, rest) => some (some q, cap, rest)
        | none =>
          match findParenClose after with
          | some (cap, rest) => some (none, cap, rest)
          | none => none
      else
        match findParenClose after with
        | some (cap, rest) => some (none, cap, rest)
        | none => none
    | [] => none

/-- Global-replace scan of the regex; the replacement writes
`url(` + quote + resolved path + quote + `)`.  Fuel starts at the input
length, which every step strictly consumes. -/
def cssScan (resolve : String → String) : Nat → List Char → List Char
  | 0, cs => cs
  | _ + 1, [] => []
  | fuel + 1, c :: cs =>
    match matchUrlToken (c :: cs) with
    | some (q, cap, rest) =>
      let quoteL := match q with
        | some qc => [qc]
        | none => []
      ('u' :: 'r' :: 'l' :: '(' :: quoteL) ++ (resolve ⟨cap⟩).data ++ quoteL ++
        (')' :: cssScan resolve fuel rest)
    | none => c :: cssScan resolve fuel cs

/-- Embedding of `rewriteCssUrls(cssContent, baseUrl)` with a parsed
base (the inline-style call passes the page URL object). -/
def rewriteCssUrls (cssContent : String) (baseUrl : URLRecord) : String :=
  if cssContent = "" then ""
  else ⟨cssScan (fun p => makeAbsolute p baseUrl) cssContent.data.length cssContent.data⟩

/-- Embedding of `rewriteCssUrls(cssContent, fullUrl)` as called from
the stylesheet task, where the base is a URL string: `new URL` parses it
first, and if that fails every resolution throws and the catch keeps
each captured path unchanged. -/
def rewriteCssUrlsStrBase (cssContent : String) (baseStr : String) : String :=
  match parseURL baseStr none with
  | some rec => rewriteCssUrls cssContent rec
  | none =>
    if cssContent = "" then ""
    else ⟨cssScan makeAbsoluteNoBase cssContent.data.length cssContent.data⟩

/-! ### The srcset pass (scrape.js lines 104-115) -/

/-- Embedding of the srcset rewrite: split on `,`, trim each part, split
on whitespace runs, resolve the first token, rejoin with single spaces,
and join the candidates with a comma and a space. -/
def processSrcset (srcset : String) (baseUrl : URLRecord) : String :=
  let parts := splitAll ',' srcset.data
  let mapped := parts.map (fun part =>
    let bits := splitWsRuns (jsTrimList part)
    match bits with
    | [] => []
    | b0 :: restBits =>
      joinSep [' '] ((makeAbsolute ⟨b0⟩ baseUrl).data :: restBits))
  ⟨joinSep [',', ' '] mapped⟩

/-! ### The Netlify handler `exports.handler` (scrape.js lines 33-146)

The document tree produced by `cheerio.load` is modelled as a flat list
of elements, which is all the per-element passes observe: stylesheet
links (`link[rel="stylesheet"]`), style elements created by inlining,
and generic elements with their attribute list.  The `<base>` tag
prepended to `<head>` and the tree shape are not modelled; no claim
mentions them.  Network, JSON parsing and HTML parsing are external
effects and enter as explicit outcome values. -/

/-- Simplified document node. -/
inductive HNode where
  | link (href : Option String)
  | style (css : String)
  | elem (attrs : List (String × String))
deriving DecidableEq

/-- External effects of one invocation: the main page fetch, the
per-stylesheet fetches (keyed by absolute URL), and the HTML parse. -/
structure World where
  fetchMain : String → Except String String
  fetchStyle : String → Except String String
  parseHTML : String → List HNode

/-- Incoming event: the HTTP method and the outcome of
`JSON.parse(event.body)` projected to its `url` field (`Except.error`
models a parse throw; `none` a missing field). -/
structure ScrapeEvent where
  httpMethod : String
  body : Except String (Option String)

/-- Response body: the success JSON carries only an `html` key, the
error JSON only an `error` key. -/
inductive RespBody where
  | empty
  | json_html (html : String)
  | json_error (error : String)
deriving DecidableEq

/-- HTTP response record. -/
structure Response where
  statusCode : Nat
  headers : List (String × String)
  body : RespBody
deriving DecidableEq

/-- The CORS header object shared by every branch (lines 35-39). -/
def corsHeaders : List (String × String) :=
  [("Access-Control-Allow-Origin", "*"),
   ("Access-Control-Allow-Headers", "Content-Type"),
   ("Access-Control-Allow-Methods", "POST, OPTIONS")]

/-- JS `a || b` for strings (`error.message || fallback`). -/
def jsOrDefault (a b : String) : String := if a = "" then b else a

/-- Attribute rewrite of passes 3-5: `src`/`href`/`poster` through the
normalizer, `srcset` through the srcset pass, and a `style` attribute
containing `url(` through the CSS rewriter (all guarded by JS
truthiness of the attribute value). -/
def rewriteAttr (base : URLRecord) (kv : String × String) : String × String :=
  if (kv.1 = "src" || kv.1 = "href" || kv.1 = "poster") && !(kv.2 = "") then
    (kv.1, makeAbsolute kv.2 base)
  else if kv.1 = "srcset" && !(kv.2 = "") then (kv.1, processSrcset kv.2 base)
  else if kv.1 = "style" && !(kv.2 = "") && containsSub ['u', 'r', 'l', '('] kv.2.data then
    (kv.1, rewriteCssUrls kv.2 base)
  else kv

/-- Per-node effect of the whole pipeline: a stylesheet link with a
truthy `href` is fetched at its absolute URL and replaced by a comment-
annotated `<style>` on success, or kept with `href` set to the absolute
URL on failure (the task's own `catch`); other elements get the
attribute passes and lose `integrity`/`crossorigin`. -/
def processNode (base : URLRecord) (w : World) : HNode → HNode
  | .link none => .link none
  | .link (some href) =>
    if href = "" then .link (some href)
    else
      let fullUrl := makeAbsolute href base
      match w.fetchStyle fullUrl with
      | .ok css =>
        .style ("/* " ++ fullUrl ++ " */" ++ (⟨[nlChar]⟩ : String) ++
          rewriteCssUrlsStrBase css fullUrl)
      | .error _ => .link (some fullUrl)
  | .style css => .style css
  | .elem attrs =>
    .elem ((attrs.map (rewriteAttr base)).filter
      (fun kv => !(kv.1 = "integrity") && !(kv.1 = "crossorigin")))

/-- Serialization of the transformed document (`$.html()`), elided to a
concatenation of the node renderings; no claim depends on its detail. -/
def serializeNode : HNode → String
  | .link none => "<link rel=stylesheet>"
  | .link (some href) => "<link rel=stylesheet href=" ++ href ++ ">"
  | .style css => "<style>" ++ css ++ "</style>"
  | .elem attrs =>
    "<el" ++ String.join (attrs.map (fun kv => " " ++ kv.1 ++ "=" ++ kv.2)) ++ ">"

/-- Document serialization. -/
def serializeDoc (doc : List HNode) : String :=
  String.join (doc.map serializeNode)

/-- Embedding of `exports.handler`: OPTIONS preflight, method check,
body parse, required-url check, main fetch, base-URL parse, the
per-node pipeline, and the outer catch that turns any throw (JSON parse,
main fetch, `new URL(url)`) into a single 500 error. -/
def handler (ev : ScrapeEvent) (w : World) : Response :=
  if ev.httpMethod = "OPTIONS" then ⟨200, corsHeaders, .empty⟩
  else if !(ev.httpMethod = "POST") then
    ⟨405, corsHeaders, .json_error "Method not allowed"⟩
  else
    match ev.body with
    | .error e => ⟨500, corsHeaders, .json_error (jsOrDefault e "Failed to scrape website")⟩
    | .ok urlOpt =>
      match urlOpt with
      | none => ⟨400, corsHeaders, .json_error "URL is required"⟩
      | some url =>
        if url = "" then ⟨400, corsHeaders, .json_error "URL is required"⟩
        else
          match w.fetchMain url with
          | .error e =>
            ⟨500, corsHeaders, .json_error (jsOrDefault e "Failed to scrape website")⟩
          | .ok html =>
            match parseURL url none with
            | none =>
              ⟨500, corsHeaders,
                .json_error (jsOrDefault "Invalid URL" "Failed to scrape website")⟩
            | some base =>
              ⟨200, corsHeaders,
                .json_html (serializeDoc ((w.parseHTML html).map (processNode base w)))⟩

/-! ### Timeout and await structure of the pipeline variants

Each deployment adapter configures its main `axios.get`, its
per-stylesheet `axios.get`, and how it awaits the stylesheet tasks.
`none` for a timeout means the option is absent (axios default: no
timeout).  `settleTimeMs` is when one task settles given its network
latency; `assembleTimeMs` is when the pipeline proceeds to
serialization given the latencies of all tasks. -/

/-- How a variant awaits its stylesheet tasks. -/
inductive WaitStrategy where
  | awaitAll
  | raceTimer (ms : Nat)
deriving DecidableEq

/-- Timeout/await configuration of one pipeline variant. -/
structure VariantConfig where
  mainTimeoutMs : Option Nat
  styleTimeoutMs : Option Nat
  stylesWait : WaitStrategy
deriving DecidableEq

/-- `netlify/functions/scrape.js`: main fetch has no `timeout` option
(lines 67-72), stylesheet fetches use `timeout: 8000` (line 84), and
line 130 is a plain `await Promise.all(stylePromises)`. -/
def scrapeJsConfig : VariantConfig := ⟨none, some 8000, .awaitAll⟩

/-- `part_000`: main fetch `timeout: 6000` (line 63), stylesheet fetches
`timeout: 3000` (line 81), and line 140 races `Promise.all` against a
3000 ms timer. -/
def part000Config : VariantConfig := ⟨some 6000, some 3000, .raceTimer 3000⟩

/-- `part_001`: no main timeout, stylesheet `timeout: 8000`, plain
`await Promise.all`. -/
def part001Config : VariantConfig := ⟨none, some 8000, .awaitAll⟩

/-- `part_003` (express server): no main timeout, stylesheet
`timeout: 8000` (line 67), plain `await Promise.all` (line 128). -/
def part003Config : VariantConfig := ⟨none, some 8000, .awaitAll⟩

/-- All pipeline variants in the repository. -/
def pipelineVariants : List VariantConfig :=
  [scrapeJsConfig, part000Config, part001Config, part003Config]

/-- Whether a variant races the stylesheet tasks against a global timer. -/
def usesGlobalRace (c : VariantConfig) : Bool :=
  match c.stylesWait with
  | .raceTimer _ => true
  | .awaitAll => false

/-- When one stylesheet task settles, given its network latency: the
per-fetch timeout caps it when configured. -/
def settleTimeMs (c : VariantConfig) (d : Nat) : Nat :=
  match c.styleTimeoutMs with
  | some t => min d t
  | none => d

/-- When the pipeline proceeds to serialization, given the latencies of
all stylesheet tasks. -/
def assembleTimeMs (c : VariantConfig) (ds : List Nat) : Nat :=
  let settled := (ds.map (settleTimeMs c)).foldr max 0
  match c.stylesWait with
  | .awaitAll => settled
  | .raceTimer ms => min settled ms

/-- Whether a variant sets both timeouts with the per-stylesheet one
strictly below the main one. -/
def perFetchBelowMain (c : VariantConfig) : Bool :=
  match c.mainTimeoutMs, c.styleTimeoutMs with
  | some m, some s => s < m
  | _, _ => false

/-! ### Concrete fixtures used by witnesses and counterexamples -/

/-- The parsed form of `https://ex.com/` (the spec's example base). -/
def exComBase : URLRecord :=
  { scheme := "https", userinfo := "", host := "ex.com", port := none,
    path := [""], opaquePath := none, query := none, fragment := none }

/-- Singleton single-quote string. -/
def sqS : String := ⟨[squote]⟩

/-- Singleton double-quote string. -/
def dqS : String := ⟨[dquote]⟩

/-- A world whose main fetch fails. -/
def wMainFail : World :=
  { fetchMain := fun _ => .error "boom"
    fetchStyle := fun _ => .error "unreachable"
    parseHTML := fun _ => [] }

/-- A world whose main fetch succeeds but whose only stylesheet fetch
fails (e.g. times out). -/
def wStyleFail : World :=
  { fetchMain := fun _ => .ok "<html>"
    fetchStyle := fun _ => .error "timeout of 8000ms exceeded"
    parseHTML := fun _ => [.link (some "https://cdn.ex.com/kit.css")] }

/-- Whether a case-insensitive `url(` occurs anywhere in the input (the
only positions at which the CSS regex can start a match). -/
def hasUrlOpen : List Char → Bool
  | [] => false
  | c :: cs => (urlTokenOpen (c :: cs)).isSome || hasUrlOpen cs

/-- Specification-side predicate, from the spec's glossary: an absolute
URL is one carrying a scheme and an authority. -/
def absoluteURLSpec (s : String) : Bool :=
  match schemeSplit (jsTrim s).data with
  | some (_, rest) => ['/', '/'].isPrefixOf rest
  | none => false

end Scrape

namespace Scrape

/-! ### Helper lemmas (shared across claims) -/

/-- Any input whose trimmed form starts with `http` is returned
unchanged by `makeAbsolute` (the second disjunct of the pass-through
test). -/
theorem makeAbsolute_http_passthru (u : String) (base : URLRecord)
    (h : jsStartsWith (jsTrim u) "http" = true) : makeAbsolute u base = u := by
  unfold makeAbsolute
  split
  · rfl
  · split
    · rfl
    · rename_i hcond
      exact absurd (by simp [h]) hcond

/-- A fold of `max` over a list of bounded naturals is bounded. -/
theorem foldr_max_le (b : Nat) :
    ∀ l : List Nat, (∀ x ∈ l, x ≤ b) → l.foldr max 0 ≤ b
  | [], _ => Nat.zero_le b
  | x :: l, h => by
    have hx : x ≤ b := h x (List.mem_cons_self x l)
    have hl : l.foldr max 0 ≤ b := foldr_max_le b l fun y hy => h y (List.mem_cons_of_mem x hy)
    simpa using Nat.max_le.mpr ⟨hx, hl⟩

/-- Indexing a mapped list. -/
theorem get_map_aux {α β : Type} (f : α → β) :
    ∀ (l : List α) (i : Nat) (h1 : i < l.length) (h2 : i < (l.map f).length),
      (l.map f).get ⟨i, h2⟩ = f (l.get ⟨i, h1⟩)
  | _ :: _, 0, _, _ => rfl
  | _ :: l, i + 1, h1, h2 =>
    get_map_aux f l i (Nat.lt_of_succ_lt_succ h1) (Nat.lt_of_succ_lt_succ h2)

/-- The CSS scan leaves input without any case-insensitive `url(`
occurrence untouched. -/
theorem cssScan_no_match (f : String → String) :
    ∀ (fuel : Nat) (cs : List Char), hasUrlOpen cs = false → cssScan f fuel cs = cs
  | 0, _, _ => rfl
  | _ + 1, [], _ => rfl
  | fuel + 1, c :: cs, h => by
    have h1 : (urlTokenOpen (c :: cs)).isSome = false := by
      have := h
      unfold hasUrlOpen at this
      exact (Bool.or_eq_false_iff.mp this).1
    have h2 : hasUrlOpen cs = false := by
      have := h
      unfold hasUrlOpen at this
      exact (Bool.or_eq_false_iff.mp this).2
    have hnone : urlTokenOpen (c :: cs) = none := Option.not_isSome_iff_eq_none.mp (by simp [h1])
    unfold cssScan matchUrlToken
    rw [hnone]
    simp only []
    rw [cssScan_no_match f fuel cs h2]

/-! ### Claim theorems -/

/-- C3: for every base URL, `makeAbsolute` returns each of the empty,
fragment, `data:`, `mailto:`, `tel:`, `javascript:` and
protocol-relative references unchanged. -/
theorem spec_c3_passthrough (base : URLRecord) :
    makeAbsolute "" base = "" ∧
    makeAbsolute "#frag" base = "#frag" ∧
    makeAbsolute "data:..." base = "data:..." ∧
    makeAbsolute "mailto:x@y.com" base = "mailto:x@y.com" ∧
    makeAbsolute "tel:123" base = "tel:123" ∧
    makeAbsolute "javascript:void(0)" base = "javascript:void(0)" ∧
    makeAbsolute "//host/path" base = "//host/path" :=
  ⟨rfl, rfl, rfl, rfl, rfl, rfl, rfl⟩

/-- C4 counterexample: the reference `":::not a url"` is not malformed
for WHATWG resolution — against `https://ex.com/` it resolves to
`https://ex.com/:::not%20a%20url`, so `makeAbsolute` does not return it
unchanged. -/
theorem spec_c4_counterexample :
    makeAbsolute ":::not a url" exComBase = "https://ex.com/:::not%20a%20url" ∧
    ¬ makeAbsolute ":::not a url" exComBase = ":::not a url" := by
  constructor
  · decide
  · decide

/-- C4 amended: `makeAbsolute` is total and fails closed — whenever URL
resolution of the reference against the base throws, the original
reference is returned unchanged (a genuinely malformed reference being
e.g. `foo://a b`, whose non-special host contains a forbidden space). -/
theorem spec_c4_fail_closed (r : String) (base : URLRecord)
    (h : parseURL r (some base) = none) : makeAbsolute r base = r := by
  unfold makeAbsolute
  split
  · rfl
  · split
    · rfl
    · rw [h]

/-- Witness for C4: `foo://a b` does fail WHATWG parsing and is passed
through unchanged. -/
theorem spec_c4_witness :
    parseURL "foo://a b" (some exComBase) = none ∧
    makeAbsolute "foo://a b" exComBase = "foo://a b" :=
  ⟨by decide, spec_c4_fail_closed "foo://a b" exComBase (by decide)⟩

/-- C8 counterexample: `HTTPS://EX.COM/a` is an absolute URL (scheme
and authority), yet `makeAbsolute` is not the identity on it: the
case-sensitive prefix test misses it and WHATWG parsing lowercases the
scheme and host. -/
theorem spec_c8_counterexample :
    absoluteURLSpec "HTTPS://EX.COM/a" = true ∧
    makeAbsolute "HTTPS://EX.COM/a" exComBase = "https://ex.com/a" ∧
    ¬ makeAbsolute "HTTPS://EX.COM/a" exComBase = "HTTPS://EX.COM/a" := by
  refine ⟨by decide, by decide, by decide⟩

/-- C8 amended: normalization is the identity on absolute URLs whose
trimmed form starts with the literal lowercase `http` (the code's
prefix test), and on already-normalized absolute URLs of other schemes
such as `ftp://host/a` (re-parsed and re-serialized to themselves); it
is not the identity on non-normalized forms such as uppercase schemes. -/
theorem spec_c8_amended_identity :
    (∀ (u : String) (base : URLRecord),
      jsStartsWith (jsTrim u) "http" = true → makeAbsolute u base = u) ∧
    makeAbsolute "ftp://host/a" exComBase = "ftp://host/a" :=
  ⟨fun u base h => makeAbsolute_http_passthru u base h, by decide⟩

/-- Witness for C8: a concrete lowercase absolute URL is unchanged. -/
theorem spec_c8_witness :
    makeAbsolute "https://cdn.ex.com/kit.css" exComBase = "https://cdn.ex.com/kit.css" :=
  spec_c8_amended_identity.1 "https://cdn.ex.com/kit.css" exComBase (by decide)

/-- C9: the scheme test is a case-sensitive literal prefix check: every
reference whose trimmed form starts with `http` is returned unchanged —
including the relative path `httpdocs/logo.png` — while the uppercase
absolute URL `HTTPS://EX.COM/a` fails the check and is resolved,
yielding `https://ex.com/a`. -/
theorem spec_c9_prefix_check :
    (∀ (r : String) (base : URLRecord),
      jsStartsWith (jsTrim r) "http" = true → makeAbsolute r base = r) ∧
    makeAbsolute "httpdocs/logo.png" exComBase = "httpdocs/logo.png" ∧
    jsStartsWith (jsTrim "HTTPS://EX.COM/a") "http" = false ∧
    makeAbsolute "HTTPS://EX.COM/a" exComBase = "https://ex.com/a" :=
  ⟨fun r base h => makeAbsolute_http_passthru r base h, by decide, by decide, by decide⟩

/-- Witness for C9: the prefix rule applied at a concrete input. -/
theorem spec_c9_witness :
    makeAbsolute "http://a/b" exComBase = "http://a/b" :=
  spec_c9_prefix_check.1 "http://a/b" exComBase (by decide)

/-- C5: `rewriteCssUrls` resolves the captured path of each `url(...)`
token while preserving the quoting style (single, double, or none), and
text without any `url(` token passes through unchanged — both in
general and on the spec's example. -/
theorem spec_c5_css_rewrite :
    rewriteCssUrls ("background:url(" ++ sqS ++ "bg.png" ++ sqS ++ ")") exComBase =
      "background:url(" ++ sqS ++ "https://ex.com/bg.png" ++ sqS ++ ")" ∧
    rewriteCssUrls ("background:url(" ++ dqS ++ "bg.png" ++ dqS ++ ")") exComBase =
      "background:url(" ++ dqS ++ "https://ex.com/bg.png" ++ dqS ++ ")" ∧
    rewriteCssUrls "background:url(bg.png)" exComBase =
      "background:url(https://ex.com/bg.png)" ∧
    (∀ (s : String) (base : URLRecord),
      hasUrlOpen s.data = false → rewriteCssUrls s base = s) := by
  refine ⟨by decide, by decide, by decide, fun s base h => ?_⟩
  unfold rewriteCssUrls
  split
  · rename_i he
    exact he.symm
  · exact congrArg String.mk (cssScan_no_match _ _ _ h)

/-- Witness for C5: a declaration block with no `url(` token is
returned unchanged. -/
theorem spec_c5_witness :
    rewriteCssUrls "color:red; padding:2px" exComBase = "color:red; padding:2px" :=
  spec_c5_css_rewrite.2.2.2 "color:red; padding:2px" exComBase (by decide)

/-- C6: the srcset pass rewrites only the URL token of each
comma-separated candidate, keeps the descriptor tokens, and rejoins
with a comma and a space, as on the spec's example. -/
theorem spec_c6_srcset :
    processSrcset "a.jpg 1x, b.jpg 2x" exComBase =
      "https://ex.com/a.jpg 1x, https://ex.com/b.jpg 2x" ∧
    processSrcset "c.png 2x, d.png" exComBase =
      "https://ex.com/c.png 2x, https://ex.com/d.png" ∧
    processSrcset "e.svg 100w 2x" exComBase = "https://ex.com/e.svg 100w 2x" := by
  refine ⟨by decide, by decide, by decide⟩

/-- C2 counterexample: not every pipeline variant races the stylesheet
tasks against a global timer — `scrape.js` plainly awaits
`Promise.all`, so a single 5000 ms stylesheet delays its assembly to
5000 ms, past the 3000 ms global deadline the spec describes. -/
theorem spec_c2_counterexample :
    ¬ (∀ c ∈ pipelineVariants, usesGlobalRace c = true) ∧
    usesGlobalRace scrapeJsConfig = false ∧
    assembleTimeMs scrapeJsConfig [5000] = 5000 := by
  refine ⟨fun h => ?_, by decide, by decide⟩
  have := h scrapeJsConfig (by decide)
  simp [usesGlobalRace, scrapeJsConfig] at this

/-- C2 amended: only the `part_000` variant races the stylesheet tasks
against a single global 3000 ms timer, so its assembly time never
exceeds 3000 ms; the `scrape.js` and `part_003` variants await all
tasks, bounded only by the 8000 ms per-fetch timeout. -/
theorem spec_c2_amended_global_race :
    usesGlobalRace part000Config = true ∧
    (∀ ds : List Nat, assembleTimeMs part000Config ds ≤ 3000) ∧
    usesGlobalRace scrapeJsConfig = false ∧
    usesGlobalRace part003Config = false ∧
    (∀ ds : List Nat, assembleTimeMs scrapeJsConfig ds ≤ 8000) ∧
    (∀ ds : List Nat, assembleTimeMs part003Config ds ≤ 8000) := by
  refine ⟨by decide, fun ds => ?_, by decide, by decide, fun ds => ?_, fun ds => ?_⟩
  · exact Nat.min_le_right _ 3000
  · exact foldr_max_le 8000 _ (by
      intro x hx
      obtain ⟨d, _, rfl⟩ := List.mem_map.mp hx
      exact Nat.min_le_right d 8000)
  · exact foldr_max_le 8000 _ (by
      intro x hx
      obtain ⟨d, _, rfl⟩ := List.mem_map.mp hx
      exact Nat.min_le_right d 8000)

/-- C7 counterexample: not every variant gives the main fetch a timeout
at all — `scrape.js` (like `part_001` and `part_003`) omits the
`timeout` option on the main `axios.get`, so no per-stylesheet timeout
can be strictly smaller than it. -/
theorem spec_c7_counterexample :
    ¬ (∀ c ∈ pipelineVariants, perFetchBelowMain c = true) ∧
    scrapeJsConfig.mainTimeoutMs = none := by
  refine ⟨fun h => ?_, by decide⟩
  have := h scrapeJsConfig (by decide)
  simp [perFetchBelowMain, scrapeJsConfig] at this

/-- C7 amended: only `part_000` sets a main-fetch timeout (6000 ms)
with a strictly smaller per-stylesheet timeout (3000 ms); the other
variants omit the main-fetch timeout and use 8000 ms per stylesheet. -/
theorem spec_c7_amended_timeouts :
    perFetchBelowMain part000Config = true ∧
    part000Config.mainTimeoutMs = some 6000 ∧
    part000Config.styleTimeoutMs = some 3000 ∧
    scrapeJsConfig.mainTimeoutMs = none ∧
    scrapeJsConfig.styleTimeoutMs = some 8000 ∧
    part001Config.mainTimeoutMs = none ∧
    part003Config.mainTimeoutMs = none := by
  refine ⟨by decide, by decide, by decide, by decide, by decide, by decide, by decide⟩

/-- C10: every response of the handler, on every branch, carries the
CORS header `Access-Control-Allow-Origin: *`. -/
theorem spec_c10_cors (ev : ScrapeEvent) (w : World) :
    ("Access-Control-Allow-Origin", "*") ∈ (handler ev w).headers := by
  unfold handler
  repeat' split
  all_goals exact List.mem_cons_self _ _

/-- C1: a failure of the main page fetch yields a single structured 500
error response whose body has no `html` key, while a failure of an
individual stylesheet fetch leaves the pipeline on the 200 path and
keeps that stylesheet's `<link>` element with its `href` rewritten to
the absolute URL. -/
theorem spec_c1_error_handling :
    (∀ (w : World) (u e : String), ¬ u = "" → w.fetchMain u = .error e →
      handler ⟨"POST", .ok (some u)⟩ w =
        ⟨500, corsHeaders, .json_error (jsOrDefault e "Failed to scrape website")⟩) ∧
    (∀ (w : World) (u html href : String) (base : URLRecord) (i : Nat)
      (hu : ¬ u = "") (hm : w.fetchMain u = .ok html)
      (hb : parseURL u none = some base)
      (hi : i < (w.parseHTML html).length)
      (hl : (w.parseHTML html).get ⟨i, hi⟩ = HNode.link (some href))
      (hne : ¬ href = "")
      (hf : ∃ msg, w.fetchStyle (makeAbsolute href base) = .error msg),
      (handler ⟨"POST", .ok (some u)⟩ w).statusCode = 200 ∧
      ∃ hj : i < ((w.parseHTML html).map (processNode base w)).length,
        ((w.parseHTML html).map (processNode base w)).get ⟨i, hj⟩ =
          HNode.link (some (makeAbsolute href base))) := by
  constructor
  · intro w u e hu hm
    simp [handler, hu, hm]
  · intro w u html href base i hu hm hb hi hl hne hf
    obtain ⟨msg, hmsg⟩ := hf
    constructor
    · simp [handler, hu, hm, hb]
    · refine ⟨by simpa using hi, ?_⟩
      rw [get_map_aux (processNode base w) _ i hi (by simpa using hi), hl]
      simp only [processNode]
      rw [if_neg hne, hmsg]

/-- Witness for C1: a concrete failing main fetch gives the 500 error,
and a concrete failing stylesheet fetch leaves a 200 response with the
link kept at its absolute URL. -/
theorem spec_c1_witness :
    handler ⟨"POST", .ok (some "https://ex.com/")⟩ wMainFail =
      ⟨500, corsHeaders, .json_error "boom"⟩ ∧
    ((handler ⟨"POST", .ok (some "https://ex.com/")⟩ wStyleFail).statusCode = 200 ∧
      ∃ hj : 0 < ((wStyleFail.parseHTML "<html>").map (processNode exComBase wStyleFail)).length,
        ((wStyleFail.parseHTML "<html>").map (processNode exComBase wStyleFail)).get ⟨0, hj⟩ =
          HNode.link (some (makeAbsolute "https://cdn.ex.com/kit.css" exComBase))) :=
  ⟨spec_c1_error_handling.1 wMainFail "https://ex.com/" "boom" (by decide) rfl,
   spec_c1_error_handling.2 wStyleFail "https://ex.com/" "<html>"
     "https://cdn.ex.com/kit.css" exComBase 0 (by decide) rfl (by decide) (by decide)
     rfl (by decide) ⟨"timeout of 8000ms exceeded", rfl⟩⟩

end Scrape
